import Mathlib

/-!
Verification of the vehicle-registration analytics engine.

This file shallowly embeds the core of the repository:
  * `generate_synthetic_data` and `calculate_growth_metrics`
    (src/data_scraper.py, class VehicleDataScraper), and
  * the query layer of `DatabaseManager` (src/database_utils.py):
    `get_filtered_data`, `get_growth_leaders`, `get_market_share_data`
    and the error-absorbing `execute_query`.

Modelling conventions:
  * Python / pandas / SQLite floating point arithmetic is modelled over `ℚ`,
    with IEEE special values (`inf`, `-inf`, `NaN`) made explicit by the
    `PF` type where they matter (the growth columns).  Pandas represents a
    missing value (and a missing lagged value produced by `shift`) as NaN,
    which is serialised to SQL NULL; so "absent" for a growth cell is
    modelled as `PF.nan`.
  * Dates are modelled as natural numbers (the month index of the monthly
    series); the source stores ISO date strings whose lexicographic order,
    used by `BETWEEN` and `ORDER BY`, coincides with chronological order.
  * SQL result ordering (`ORDER BY`) is modelled with the stable
    `List.insertionSort`.
  * The process-global random source (`random.uniform(0.85, 1.15)`, one
    draw per generated record) is modelled as an injected stream
    `s : ℕ → ℚ` of draws, indexed by the position of the record in the
    generator's deterministic iteration order.
-/

/-- Python `int(q)`: truncation of a real number toward zero. -/
def pyInt (q : ℚ) : ℤ := if 0 ≤ q then ⌊q⌋ else -⌊-q⌋

/-- numpy / pandas rounding of a real number to the nearest integer,
ties going to the even integer (the rounding used by `Series.round`). -/
def roundHalfEven (q : ℚ) : ℤ :=
  if q - ⌊q⌋ < 1/2 then ⌊q⌋
  else if 1/2 < q - ⌊q⌋ then ⌊q⌋ + 1
  else if ⌊q⌋ % 2 = 0 then ⌊q⌋ else ⌊q⌋ + 1

/-- pandas `.round(2)`: round to 2 decimal places, ties to even. -/
def np_round2 (q : ℚ) : ℚ := (roundHalfEven (q * 100) : ℚ) / 100

/-- SQLite `ROUND(q)` to the nearest integer, ties away from zero. -/
def sqliteRound (q : ℚ) : ℤ := if 0 ≤ q then round q else -(round (-q))

/-- SQLite `ROUND(q, 2)`: round to 2 decimal places, ties away from zero. -/
def sql_round2 (q : ℚ) : ℚ := (sqliteRound (q * 100) : ℚ) / 100

/-- A pandas float64 cell of a growth column: a finite value, an infinity
produced by division by zero, or NaN.  `shift` puts NaN where no lagged
row exists, and NaN is what `to_sql` stores as NULL, so `nan` is the
"absent" value of the data model. -/
inductive PF where
  | fin (q : ℚ)
  | pinf
  | ninf
  | nan
  deriving DecidableEq, Inhabited

/-! ## SeriesGenerator: `VehicleDataScraper.generate_synthetic_data`

The source iterates over the 60 month-end dates of 2020-2024
(`pd.date_range`, `freq='M'`), the three vehicle categories and the
category's manufacturers, and for each triple draws one
`random.uniform(0.85, 1.15)` factor.  A date is modelled by its month
index `t ∈ [0, 60)`: `year = 2020 + t / 12`, `month = t % 12 + 1`. -/

def monthOf (t : ℕ) : ℕ := t % 12 + 1

def yearOf (t : ℕ) : ℕ := 2020 + t / 12

def quarterOf (t : ℕ) : ℕ := (monthOf t - 1) / 3 + 1

/-- One raw generated row (a record of the dataframe built by
`generate_synthetic_data`). -/
structure RawRecord where
  date : ℕ
  year : ℕ
  month : ℕ
  quarter : ℕ
  vehicle_category : String
  manufacturer : String
  registrations : ℤ
  deriving DecidableEq, Inhabited

def categories : List String := ["2W", "3W", "4W"]

def manufacturers (c : String) : List String :=
  if c = "2W" then
    ["Hero MotoCorp", "Honda", "TVS", "Bajaj", "Yamaha", "Royal Enfield"]
  else if c = "3W" then
    ["Bajaj", "Mahindra", "TVS", "Piaggio", "Atul Auto"]
  else if c = "4W" then
    ["Maruti Suzuki", "Hyundai", "Tata", "Mahindra", "Kia", "Toyota", "MG Motor"]
  else []

/-- Lookup of `base_registrations[category]` (base monthly volume per category). -/
def base_registrations (c : String) : ℚ :=
  if c = "2W" then 1200000 else if c = "3W" then 25000
  else if c = "4W" then 280000 else 0

/-- Lookup of `market_shares[category][manufacturer]` (roster weight). -/
def market_shares (c m : String) : ℚ :=
  if c = "2W" then
    if m = "Hero MotoCorp" then 35/100 else if m = "Honda" then 25/100
    else if m = "TVS" then 15/100 else if m = "Bajaj" then 12/100
    else if m = "Yamaha" then 8/100 else if m = "Royal Enfield" then 5/100
    else 0
  else if c = "3W" then
    if m = "Bajaj" then 45/100 else if m = "Mahindra" then 25/100
    else if m = "TVS" then 15/100 else if m = "Piaggio" then 10/100
    else if m = "Atul Auto" then 5/100 else 0
  else if c = "4W" then
    if m = "Maruti Suzuki" then 40/100 else if m = "Hyundai" then 18/100
    else if m = "Tata" then 12/100 else if m = "Mahindra" then 10/100
    else if m = "Kia" then 8/100 else if m = "Toyota" then 7/100
    else if m = "MG Motor" then 5/100 else 0
  else 0

/-- Seasonal factor from the calendar month. -/
def seasonal_factor (month : ℕ) : ℚ :=
  if month = 10 ∨ month = 11 then 13/10
  else if month = 3 ∨ month = 4 then 11/10
  else if month = 7 ∨ month = 8 then 8/10
  else 1

/-- Compounding growth factor: `(1 + 0.08) ** (year - 2020)`. -/
def growth_factor (year : ℕ) : ℚ := (108/100) ^ (year - 2020)

/-- COVID shock factor for 2020-03 onward and the first half of 2021. -/
def covid_factor (year month : ℕ) : ℚ :=
  if year = 2020 ∧ 3 ≤ month then 6/10
  else if year = 2021 ∧ month ≤ 6 then 75/100
  else 1

/-- The generator's iteration order: for each of the 60 dates, for each
category, for each of that category's manufacturers.  Each triple
consumes exactly one uniform random draw. -/
def genTriples : List (ℕ × String × String) :=
  (List.range 60).flatMap (fun t =>
    categories.flatMap (fun c => (manufacturers c).map (fun m => (t, c, m))))

/-- One generated record.  `registrations = int(base_reg * growth_factor *
seasonal_factor * covid_factor * random_factor)` with
`base_reg = base_registrations[category] * market_shares[category][manufacturer]`. -/
def mkRawRecord (t : ℕ) (c m : String) (draw : ℚ) : RawRecord :=
  { date := t, year := yearOf t, month := monthOf t, quarter := quarterOf t,
    vehicle_category := c, manufacturer := m,
    registrations := pyInt (base_registrations c * market_shares c m *
      growth_factor (yearOf t) * seasonal_factor (monthOf t) *
      covid_factor (yearOf t) (monthOf t) * draw) }

/-- The generator `generate_synthetic_data`, with the random source injected as the
stream `s` of uniform draws (draw `i` is consumed by the `i`-th record in
iteration order). -/
def generate_synthetic_data (s : ℕ → ℚ) : List RawRecord :=
  genTriples.enum.map (fun p => mkRawRecord p.2.1 p.2.2.1 p.2.2.2 (s p.1))

/-! ## GrowthDeriver: `VehicleDataScraper.calculate_growth_metrics`

The source sorts by `(vehicle_category, manufacturer, date)` and, per
`(category, manufacturer)` group, computes
`prev = registrations.shift(lag)` and
`growth = ((registrations - prev) / prev * 100).round(2)` for
`lag = 12` (`yoy_growth`) and `lag = 3` (`qoq_growth`). -/

/-- Model of `Series.shift(lag)` on the registration column of one group:
position `i` receives the value at position `i - lag`, or NaN (here
`none`) for the first `lag` positions. -/
def shiftL (lag : ℕ) (l : List ℤ) : List (Option ℤ) :=
  (List.range l.length).map (fun i =>
    if lag ≤ i then some (l.getD (i - lag) 0) else none)

/-- The float64 arithmetic `((cur - prev) / prev * 100).round(2)` on one
cell: a missing lagged value (NaN) propagates to NaN; division by a zero
lagged value follows IEEE semantics (`x/0 = ±inf`, `0/0 = NaN`). -/
def pandas_growth (cur : ℤ) (prev : Option ℤ) : PF :=
  match prev with
  | none => PF.nan
  | some p =>
    if p = 0 then
      if 0 < cur then PF.pinf else if cur < 0 then PF.ninf else PF.nan
    else PF.fin (np_round2 (((cur : ℚ) - (p : ℚ)) / (p : ℚ) * 100))

/-- An enriched record: a raw record together with the four columns added
by `calculate_growth_metrics`. -/
structure Record extends RawRecord where
  prev_year_registrations : Option ℤ
  yoy_growth : PF
  prev_quarter_registrations : Option ℤ
  qoq_growth : PF
  deriving DecidableEq, Inhabited

/-- The `(category, manufacturer)` partition of a record list, in
ascending date order (the order the group has inside the dataframe after
`sort_values(['vehicle_category', 'manufacturer', 'date'])`). -/
def partitionOf (rs : List RawRecord) (c m : String) : List RawRecord :=
  (rs.filter (fun r => r.vehicle_category == c && r.manufacturer == m)).insertionSort
    (fun a b => a.date ≤ b.date)

/-- Registration counts of one partition in ascending date order. -/
def partCounts (rs : List RawRecord) (c m : String) : List ℤ :=
  (partitionOf rs c m).map (·.registrations)

/-- Enrich one ordered group with the shifted columns and the two growth
columns, exactly as the grouped `shift` / vectorised arithmetic does:
row `i` is paired with the lagged counts at positions `i - 12` and
`i - 3` of the same group. -/
def enrichPartition (rows : List RawRecord) : List Record :=
  let counts := rows.map (·.registrations)
  let py := shiftL 12 counts
  let pq := shiftL 3 counts
  (List.range rows.length).map (fun i =>
    { toRawRecord := rows.getD i default,
      prev_year_registrations := py.getD i none,
      yoy_growth := pandas_growth (counts.getD i 0) (py.getD i none),
      prev_quarter_registrations := pq.getD i none,
      qoq_growth := pandas_growth (counts.getD i 0) (pq.getD i none) })

/-- The `(category, manufacturer)` group keys in the order the sorted
dataframe presents them (lexicographic on the pair). -/
def partKeys (rs : List RawRecord) : List (String × String) :=
  ((rs.map (fun r => (r.vehicle_category, r.manufacturer))).dedup).insertionSort
    (fun a b => a.1 < b.1 ∨ (a.1 = b.1 ∧ a.2 ≤ b.2))

/-- The deriver `calculate_growth_metrics`: the sorted dataframe is the concatenation
of its `(category, manufacturer)` partitions, each enriched with the
lagged and growth columns. -/
def calculate_growth_metrics (rs : List RawRecord) : List Record :=
  (partKeys rs).flatMap (fun k => enrichPartition (partitionOf rs k.1 k.2))

/-! ## Store and query layer: `DatabaseManager` (src/database_utils.py)

A row of the `vehicle_registrations` table as the queries see it.  The
growth cells are SQL NULL or a numeric value (`Option ℚ`); `date` is the
ordered time point (the source compares ISO date strings, whose
lexicographic order is chronological). -/
structure VRow where
  date : ℕ
  vehicle_category : String
  manufacturer : String
  registrations : ℤ
  yoy_growth : Option ℚ
  qoq_growth : Option ℚ
  deriving DecidableEq, Inhabited

/-- The predicate `date BETWEEN ? AND ?` (both bounds inclusive). -/
def inDateRange (start_date end_date : ℕ) (r : VRow) : Bool :=
  start_date ≤ r.date && r.date ≤ end_date

/-- The clause `ORDER BY date, vehicle_category, manufacturer` as a key order. -/
def filteredOrder (a b : VRow) : Prop :=
  a.date < b.date ∨ (a.date = b.date ∧
    (a.vehicle_category < b.vehicle_category ∨ (a.vehicle_category = b.vehicle_category ∧
      a.manufacturer ≤ b.manufacturer)))

instance : DecidableRel filteredOrder := fun a b => by
  unfold filteredOrder; infer_instance

/-- The query `DatabaseManager.get_filtered_data`.  The SQL always filters by the
inclusive date range; the `IN (...)` clause for categories (resp.
manufacturers) is appended only when the passed list is truthy in Python,
i.e. not `None` AND not empty — an empty list behaves like an omitted
filter. -/
def get_filtered_data (tbl : List VRow) (start_date end_date : ℕ)
    (vehicle_categories manufacturers : Option (List String)) : List VRow :=
  let base := tbl.filter (inDateRange start_date end_date)
  let afterCat := match vehicle_categories with
    | some cs => if cs.isEmpty then base
        else base.filter (fun r => r.vehicle_category ∈ cs)
    | none => base
  let afterMan := match manufacturers with
    | some ms => if ms.isEmpty then afterCat
        else afterCat.filter (fun r => r.manufacturer ∈ ms)
    | none => afterCat
  afterMan.insertionSort filteredOrder

/-- One output row of `get_growth_leaders`. -/
structure LeaderRow where
  manufacturer : String
  vehicle_category : String
  avg_growth : ℚ
  total_registrations : ℤ
  deriving DecidableEq, Inhabited

/-- The growth column selected by `growth_type`
(`'yoy_growth' if growth_type == 'yoy' else 'qoq_growth'`). -/
def growthCol (growth_type : String) (r : VRow) : Option ℚ :=
  if growth_type = "yoy" then r.yoy_growth else r.qoq_growth

/-- The query `DatabaseManager.get_growth_leaders`: restrict to the date range and
to rows whose selected growth is NOT NULL, group by
`(manufacturer, vehicle_category)`, aggregate `AVG(growth)` and
`SUM(registrations)`, keep the groups `HAVING total_registrations > 1000`,
order by `avg_growth DESC` and take the first 10. -/
def get_growth_leaders (tbl : List VRow) (start_date end_date : ℕ)
    (growth_type : String) : List LeaderRow :=
  let rows := tbl.filter (fun r =>
    inDateRange start_date end_date r && (growthCol growth_type r).isSome)
  let keys := (rows.map (fun r => (r.manufacturer, r.vehicle_category))).dedup
  let groups := keys.map (fun k =>
    let g := rows.filter (fun r =>
      r.manufacturer == k.1 && r.vehicle_category == k.2)
    { manufacturer := k.1, vehicle_category := k.2,
      avg_growth := (g.map (fun r => (growthCol growth_type r).getD 0)).sum / g.length,
      total_registrations := (g.map (·.registrations)).sum })
  ((groups.filter (fun g => 1000 < g.total_registrations)).insertionSort
    (fun a b => b.avg_growth ≤ a.avg_growth)).take 10

/-- One output row of `get_market_share_data`. -/
structure ShareRow where
  manufacturer : String
  total_registrations : ℤ
  market_share : Option ℚ
  deriving DecidableEq, Inhabited

/-- The rows of the given category inside the date range (the row set
both the outer query and the denominator subquery of
`get_market_share_data` range over). -/
def msRows (tbl : List VRow) (start_date end_date : ℕ)
    (vehicle_category : String) : List VRow :=
  tbl.filter (fun r =>
    inDateRange start_date end_date r && r.vehicle_category == vehicle_category)

/-- The denominator subquery: `SELECT SUM(registrations)` over all rows of
the category in the range. -/
def totalRegs (tbl : List VRow) (start_date end_date : ℕ)
    (vehicle_category : String) : ℤ :=
  ((msRows tbl start_date end_date vehicle_category).map (·.registrations)).sum

/-- One `GROUP BY manufacturer` output row of `get_market_share_data`:
`SUM(registrations)` over the manufacturer's rows, and
`ROUND(SUM(registrations) * 100.0 / total, 2)` against the shared
denominator `total` (NULL when SQL divides by zero). -/
def msGroup (rows : List VRow) (total : ℤ) (m : String) : ShareRow :=
  let tm : ℤ := ((rows.filter (fun r => r.manufacturer == m)).map (·.registrations)).sum
  { manufacturer := m,
    total_registrations := tm,
    market_share := if total = 0 then none
      else some (sql_round2 ((tm : ℚ) * 100 / (total : ℚ))) }

/-- The query `DatabaseManager.get_market_share_data`: group the category's rows in
the range by manufacturer; each group's share is
`ROUND(SUM(registrations) * 100.0 / <category total>, 2)` with the one
shared denominator, NULL when that denominator is zero (SQL division by
zero); order by `total_registrations DESC`. -/
def get_market_share_data (tbl : List VRow) (start_date end_date : ℕ)
    (vehicle_category : String) : List ShareRow :=
  (((msRows tbl start_date end_date vehicle_category).map (·.manufacturer)).dedup.map
    (msGroup (msRows tbl start_date end_date vehicle_category)
      (totalRegs tbl start_date end_date vehicle_category))).insertionSort
    (fun a b => b.total_registrations ≤ a.total_registrations)

/-- Sum of the `market_share` column of a result (NULL read as 0). -/
def shareSum (l : List ShareRow) : ℚ :=
  (l.map (fun g => g.market_share.getD 0)).sum

/-! ### `DatabaseManager.execute_query`

Every public query method builds an SQL query and runs it through
`execute_query`, which catches any exception of the underlying engine and
returns an empty dataframe instead.  The engine is modelled as a fallible
backend mapping a query and the store contents to a result table or an
error; `execute_query` also returns the (unchanged) store to make it
explicit that a query never mutates it. -/

/-- The queries the table-returning public methods of `DatabaseManager`
issue, with their parameters. -/
inductive SQLQuery where
  | filtered (start_date end_date : ℕ) (cats mans : Option (List String))
  | categorySummary (start_date end_date : ℕ)
  | manufacturerSummary (start_date end_date : ℕ) (cat : Option String)
  | monthlyTrends (start_date end_date : ℕ) (cats mans : Option (List String))
  | growthLeaders (start_date end_date : ℕ) (growth_type : String)
  | marketShare (start_date end_date : ℕ) (cat : String)
  deriving DecidableEq

/-- The method `DatabaseManager.execute_query`: run the backend; on success return
its table, on any error return the empty table.  The store is returned
unchanged in both cases. -/
def execute_query {T : Type} (backend : SQLQuery → List VRow → Except String (List T))
    (q : SQLQuery) (db : List VRow) : List T × List VRow :=
  match backend q db with
  | .ok t => (t, db)
  | .error _ => ([], db)

/-- The method `get_filtered_data` at the interface level: issue the filtered query
through `execute_query`. -/
def run_get_filtered_data {T : Type}
    (backend : SQLQuery → List VRow → Except String (List T))
    (start_date end_date : ℕ) (cats mans : Option (List String))
    (db : List VRow) : List T × List VRow :=
  execute_query backend (.filtered start_date end_date cats mans) db

/-- The method `get_category_summary` at the interface level. -/
def run_get_category_summary {T : Type}
    (backend : SQLQuery → List VRow → Except String (List T))
    (start_date end_date : ℕ) (db : List VRow) : List T × List VRow :=
  execute_query backend (.categorySummary start_date end_date) db

/-- The method `get_manufacturer_summary` at the interface level. -/
def run_get_manufacturer_summary {T : Type}
    (backend : SQLQuery → List VRow → Except String (List T))
    (start_date end_date : ℕ) (cat : Option String)
    (db : List VRow) : List T × List VRow :=
  execute_query backend (.manufacturerSummary start_date end_date cat) db

/-- The method `get_monthly_trends` at the interface level. -/
def run_get_monthly_trends {T : Type}
    (backend : SQLQuery → List VRow → Except String (List T))
    (start_date end_date : ℕ) (cats mans : Option (List String))
    (db : List VRow) : List T × List VRow :=
  execute_query backend (.monthlyTrends start_date end_date cats mans) db

/-- The method `get_growth_leaders` at the interface level. -/
def run_get_growth_leaders {T : Type}
    (backend : SQLQuery → List VRow → Except String (List T))
    (start_date end_date : ℕ) (growth_type : String)
    (db : List VRow) : List T × List VRow :=
  execute_query backend (.growthLeaders start_date end_date growth_type) db

/-- The method `get_market_share_data` at the interface level. -/
def run_get_market_share_data {T : Type}
    (backend : SQLQuery → List VRow → Except String (List T))
    (start_date end_date : ℕ) (cat : String)
    (db : List VRow) : List T × List VRow :=
  execute_query backend (.marketShare start_date end_date cat) db

/-! ## Helper lemmas -/

lemma getD_map_range {α : Type} (f : ℕ → α) (n i : ℕ) (h : i < n) (d : α) :
    ((List.range n).map f).getD i d = f i := by
  rw [List.getD_eq_getElem?_getD, List.getElem?_map, List.getElem?_range h]
  rfl

lemma shiftL_getD (lag : ℕ) (l : List ℤ) (i : ℕ) (h : i < l.length) :
    (shiftL lag l).getD i none
      = if lag ≤ i then some (l.getD (i - lag) 0) else none := by
  unfold shiftL
  exact getD_map_range _ _ _ h _

lemma enrich_getD (rows : List RawRecord) (i : ℕ) (h : i < rows.length) :
    (enrichPartition rows).getD i default
      = { toRawRecord := rows.getD i default,
          prev_year_registrations :=
            (shiftL 12 (rows.map (·.registrations))).getD i none,
          yoy_growth := pandas_growth ((rows.map (·.registrations)).getD i 0)
            ((shiftL 12 (rows.map (·.registrations))).getD i none),
          prev_quarter_registrations :=
            (shiftL 3 (rows.map (·.registrations))).getD i none,
          qoq_growth := pandas_growth ((rows.map (·.registrations)).getD i 0)
            ((shiftL 3 (rows.map (·.registrations))).getD i none) } := by
  simp only [enrichPartition]
  exact getD_map_range _ _ _ h _

lemma enrich_part_getD (rs : List RawRecord) (c m : String) (i : ℕ)
    (h : i < (partitionOf rs c m).length) :
    (enrichPartition (partitionOf rs c m)).getD i default
      = { toRawRecord := (partitionOf rs c m).getD i default,
          prev_year_registrations :=
            (shiftL 12 (partCounts rs c m)).getD i none,
          yoy_growth := pandas_growth ((partCounts rs c m).getD i 0)
            ((shiftL 12 (partCounts rs c m)).getD i none),
          prev_quarter_registrations :=
            (shiftL 3 (partCounts rs c m)).getD i none,
          qoq_growth := pandas_growth ((partCounts rs c m).getD i 0)
            ((shiftL 3 (partCounts rs c m)).getD i none) } :=
  enrich_getD (partitionOf rs c m) i h

lemma length_partCounts (rs : List RawRecord) (c m : String) :
    (partCounts rs c m).length = (partitionOf rs c m).length := by
  unfold partCounts
  exact List.length_map _ _

lemma roundHalfEven_intCast (n : ℤ) : roundHalfEven (n : ℚ) = n := by
  unfold roundHalfEven
  rw [Int.floor_intCast, if_pos (by norm_num)]

/-! ## Claim C5: growth fields are absent at the head of every partition -/

/-- C5: in every `(category, manufacturer)` partition of the derived
records, `yoy_growth` is NaN (absent) at each of the first 12 positions
and `qoq_growth` is NaN at each of the first 3 positions. -/
theorem growth_absent_at_partition_head (rs : List RawRecord) (c m : String)
    (i : ℕ) (hi : i < (partitionOf rs c m).length) :
    (i < 12 →
      ((enrichPartition (partitionOf rs c m)).getD i default).yoy_growth = PF.nan) ∧
    (i < 3 →
      ((enrichPartition (partitionOf rs c m)).getD i default).qoq_growth = PF.nan) := by
  have hc : i < (partCounts rs c m).length := by rw [length_partCounts]; exact hi
  rw [enrich_part_getD rs c m i hi]
  constructor
  · intro h12
    rw [shiftL_getD 12 _ i hc, if_neg (by omega)]
    rfl
  · intro h3
    rw [shiftL_getD 3 _ i hc, if_neg (by omega)]
    rfl

/-- A one-row table used to witness C5. -/
def wRow : RawRecord :=
  { date := 0, year := 2020, month := 1, quarter := 1,
    vehicle_category := "2W", manufacturer := "Honda", registrations := 5 }

/-- Witness for C5 at a concrete one-record partition. -/
theorem growth_absent_at_partition_head_witness :
    0 < (partitionOf [wRow] "2W" "Honda").length ∧
    ((0 < 12 →
      ((enrichPartition (partitionOf [wRow] "2W" "Honda")).getD 0 default).yoy_growth
        = PF.nan) ∧
     (0 < 3 →
      ((enrichPartition (partitionOf [wRow] "2W" "Honda")).getD 0 default).qoq_growth
        = PF.nan)) :=
  ⟨by decide, growth_absent_at_partition_head [wRow] "2W" "Honda" 0 (by decide)⟩

/-! ## Claim C3: a zero lagged count does not give an absent growth value -/

/-- A 13-month partition whose first count is 0: the denominator of the
year-over-year growth at position 12 is exactly 0. -/
def zeroDenomRows : List RawRecord :=
  (List.range 13).map (fun t =>
    { date := t, year := 2020, month := 1, quarter := 1,
      vehicle_category := "T", manufacturer := "E",
      registrations := if t = 0 then 0 else 1 })

/-- C3 evaluated at the failing input: when the count 12 positions back is
exactly 0 (and the current count is positive), `calculate_growth_metrics`
produces a positive infinity — a non-absent, non-finite value — not the
absent value the claim requires. -/
theorem zero_denominator_gives_infinite_growth :
    ((enrichPartition (partitionOf zeroDenomRows "T" "E")).getD 12 default).yoy_growth
      = PF.pinf ∧ PF.pinf ≠ PF.nan := by
  constructor
  · decide
  · decide

/-! ## Claim C4: the growth formula, and the spec's concrete example -/

/-- The spec's example partition: counts `[100, 110, 121]`. -/
def qoqExampleRows : List RawRecord :=
  [{ date := 0, year := 2020, month := 1, quarter := 1,
     vehicle_category := "T", manufacturer := "E", registrations := 100 },
   { date := 1, year := 2020, month := 2, quarter := 1,
     vehicle_category := "T", manufacturer := "E", registrations := 110 },
   { date := 2, year := 2020, month := 3, quarter := 1,
     vehicle_category := "T", manufacturer := "E", registrations := 121 }]

/-- C4 counterexample: for the partition with counts `[100, 110, 121]`,
the 3-period-lag growth at the third position (index 2) is NaN (absent) —
there is no record 3 positions earlier — and not the claimed 21.00. -/
theorem qoq_third_position_counterexample :
    ((enrichPartition (partitionOf qoqExampleRows "T" "E")).getD 2 default).qoq_growth
      = PF.nan ∧ PF.nan ≠ PF.fin 21 := by
  constructor
  · decide
  · decide

/-- A partition with a genuine 3-position lag from 100 to 121:
counts `[100, 105, 110, 121]`. -/
def qoqLagExampleRows : List RawRecord :=
  [{ date := 0, year := 2020, month := 1, quarter := 1,
     vehicle_category := "T", manufacturer := "E", registrations := 100 },
   { date := 1, year := 2020, month := 2, quarter := 1,
     vehicle_category := "T", manufacturer := "E", registrations := 105 },
   { date := 2, year := 2020, month := 3, quarter := 1,
     vehicle_category := "T", manufacturer := "E", registrations := 110 },
   { date := 3, year := 2020, month := 4, quarter := 2,
     vehicle_category := "T", manufacturer := "E", registrations := 121 }]

/-- C4 (amended): whenever a record exists exactly `lag` positions earlier
in the partition and its count is nonzero, the growth value equals
`(count[i] - count[i-lag]) / count[i-lag] * 100` rounded to 2 decimal
places (`lag = 12` for `yoy_growth`, `lag = 3` for `qoq_growth`); and in
a partition with counts `[100, 105, 110, 121]`, where 121 does have a
count 3 positions earlier, the 3-period-lag growth is exactly 21. -/
theorem growth_formula_correct (rs : List RawRecord) (c m : String) (i : ℕ)
    (hi : i < (partitionOf rs c m).length) :
    (12 ≤ i → (partCounts rs c m).getD (i - 12) 0 ≠ 0 →
      ((enrichPartition (partitionOf rs c m)).getD i default).yoy_growth
        = PF.fin (np_round2 (((((partCounts rs c m).getD i 0 : ℤ) : ℚ)
            - (((partCounts rs c m).getD (i - 12) 0 : ℤ) : ℚ))
            / (((partCounts rs c m).getD (i - 12) 0 : ℤ) : ℚ) * 100))) ∧
    (3 ≤ i → (partCounts rs c m).getD (i - 3) 0 ≠ 0 →
      ((enrichPartition (partitionOf rs c m)).getD i default).qoq_growth
        = PF.fin (np_round2 (((((partCounts rs c m).getD i 0 : ℤ) : ℚ)
            - (((partCounts rs c m).getD (i - 3) 0 : ℤ) : ℚ))
            / (((partCounts rs c m).getD (i - 3) 0 : ℤ) : ℚ) * 100))) ∧
    ((enrichPartition (partitionOf qoqLagExampleRows "T" "E")).getD 3 default).qoq_growth
      = PF.fin 21 := by
  have hc : i < (partCounts rs c m).length := by rw [length_partCounts]; exact hi
  refine ⟨?_, ?_, ?_⟩
  · intro h12 hnz
    rw [enrich_part_getD rs c m i hi, shiftL_getD 12 _ i hc, if_pos h12]
    simp only [pandas_growth]
    rw [if_neg hnz]
  · intro h3 hnz
    rw [enrich_part_getD rs c m i hi, shiftL_getD 3 _ i hc, if_pos h3]
    simp only [pandas_growth]
    rw [if_neg hnz]
  · have hlen : 3 < (partitionOf qoqLagExampleRows "T" "E").length := by decide
    have hcounts : partCounts qoqLagExampleRows "T" "E" = [100, 105, 110, 121] := by
      decide
    have hclen : (3 : ℕ) < (partCounts qoqLagExampleRows "T" "E").length := by
      rw [length_partCounts]; exact hlen
    rw [enrich_part_getD _ _ _ 3 hlen, shiftL_getD 3 _ 3 hclen,
      if_pos (le_refl 3), hcounts]
    show pandas_growth 121 (some 100) = PF.fin 21
    simp only [pandas_growth]
    rw [if_neg (by norm_num)]
    congr 1
    have h21 : (((121 : ℤ) : ℚ) - ((100 : ℤ) : ℚ)) / ((100 : ℤ) : ℚ) * 100
        = ((21 : ℤ) : ℚ) := by norm_num
    rw [h21]
    unfold np_round2
    rw [show (((21 : ℤ) : ℚ) * 100) = ((2100 : ℤ) : ℚ) by norm_num,
      roundHalfEven_intCast]
    norm_num

/-- Witness for C4's amended growth formula at the concrete 4-row
partition, at position 3 with the 3-period lag. -/
theorem growth_formula_correct_witness :
    (3 : ℕ) ≤ 3 ∧ (partCounts qoqLagExampleRows "T" "E").getD 0 0 ≠ 0 ∧
    ((enrichPartition (partitionOf qoqLagExampleRows "T" "E")).getD 3 default).qoq_growth
      = PF.fin (np_round2 (((((partCounts qoqLagExampleRows "T" "E").getD 3 0 : ℤ) : ℚ)
          - (((partCounts qoqLagExampleRows "T" "E").getD 0 0 : ℤ) : ℚ))
          / (((partCounts qoqLagExampleRows "T" "E").getD 0 0 : ℤ) : ℚ) * 100)) :=
  ⟨le_refl 3, by decide,
    (growth_formula_correct qoqLagExampleRows "T" "E" 3 (by decide)).2.1
      (le_refl 3) (by decide)⟩

/-! ## Claims C1 and C2: filter composition and the empty filter set -/

/-- A sample stored row (category 2W). -/
def fr1 : VRow :=
  { date := 1, vehicle_category := "2W", manufacturer := "Honda",
    registrations := 10, yoy_growth := none, qoq_growth := none }

/-- A second sample stored row (category 4W). -/
def fr2 : VRow :=
  { date := 2, vehicle_category := "4W", manufacturer := "Tata",
    registrations := 20, yoy_growth := none, qoq_growth := none }

/-- C1 counterexample: with an explicitly provided empty category set,
`get_filtered_data` returns a record whose category is not in that set,
so the result is not "exactly the records whose category is in the
provided category set". -/
theorem filtered_data_empty_set_counterexample :
    fr1 ∈ get_filtered_data [fr1] 0 5 (some []) none ∧
    fr1.vehicle_category ∉ ([] : List String) := by
  constructor
  · decide
  · decide

/-- C1 (amended): whenever each provided filter set is non-empty (or the
filter is omitted), `get_filtered_data` returns exactly the stored records
satisfying the conjunction of all three predicates: period inside the
inclusive range, category in the category set if provided, manufacturer in
the manufacturer set if provided. -/
theorem get_filtered_data_and_semantics (tbl : List VRow) (sd ed : ℕ)
    (cats mans : Option (List String))
    (hc : ∀ cs, cats = some cs → cs ≠ []) (hm : ∀ ms, mans = some ms → ms ≠ [])
    (r : VRow) :
    r ∈ get_filtered_data tbl sd ed cats mans ↔
      r ∈ tbl ∧ (sd ≤ r.date ∧ r.date ≤ ed)
        ∧ (∀ cs, cats = some cs → r.vehicle_category ∈ cs)
        ∧ (∀ ms, mans = some ms → r.manufacturer ∈ ms) := by
  cases cats with
  | none =>
    cases mans with
    | none =>
      simp only [get_filtered_data]
      rw [(List.perm_insertionSort _ _).mem_iff]
      simp [List.mem_filter, inDateRange, and_assoc]
    | some ms =>
      simp only [get_filtered_data]
      rw [if_neg (by simpa [List.isEmpty_iff] using hm ms rfl),
        (List.perm_insertionSort _ _).mem_iff]
      simp [List.mem_filter, inDateRange, and_assoc]
      tauto
  | some cs =>
    cases mans with
    | none =>
      simp only [get_filtered_data]
      rw [if_neg (by simpa [List.isEmpty_iff] using hc cs rfl),
        (List.perm_insertionSort _ _).mem_iff]
      simp [List.mem_filter, inDateRange, and_assoc]
      tauto
    | some ms =>
      simp only [get_filtered_data]
      rw [if_neg (by simpa [List.isEmpty_iff] using hm ms rfl),
        if_neg (by simpa [List.isEmpty_iff] using hc cs rfl),
        (List.perm_insertionSort _ _).mem_iff]
      simp [List.mem_filter, inDateRange, and_assoc]
      tauto

/-- Witness for C1's amended filter-composition law on a concrete store
with a provided singleton category set. -/
theorem get_filtered_data_and_semantics_witness :
    (∀ cs, (some ["2W"] : Option (List String)) = some cs → cs ≠ []) ∧
    (fr1 ∈ get_filtered_data [fr1, fr2] 0 5 (some ["2W"]) none ↔
      fr1 ∈ [fr1, fr2] ∧ ((0 : ℕ) ≤ fr1.date ∧ fr1.date ≤ 5)
        ∧ (∀ cs, (some ["2W"] : Option (List String)) = some cs →
            fr1.vehicle_category ∈ cs)
        ∧ (∀ ms, (none : Option (List String)) = some ms →
            fr1.manufacturer ∈ ms)) :=
  ⟨fun cs h => by injection h with h2; rw [← h2]; decide,
   get_filtered_data_and_semantics [fr1, fr2] 0 5 (some ["2W"]) none
     (fun cs h => by injection h with h2; rw [← h2]; decide)
     (fun ms h => by cases h) fr1⟩

/-- C2 counterexample: with the categories filter passed as an explicitly
empty set, the result is all records in range — not the empty sequence
the claim requires. -/
theorem empty_categories_counterexample :
    get_filtered_data [fr2] 0 5 (some []) none = [fr2] ∧
    ([fr2] : List VRow) ≠ [] := by
  constructor
  · decide
  · decide

/-- C2 (amended): an explicitly empty category set is truthy-false in
Python, so it behaves exactly like an omitted filter: the query returns
the same (all-categories) result, not zero records. -/
theorem empty_categories_behave_as_omitted (tbl : List VRow) (sd ed : ℕ)
    (mans : Option (List String)) :
    get_filtered_data tbl sd ed (some []) mans
      = get_filtered_data tbl sd ed none mans := rfl

/-! ## Claim C7: growth leaders: volume threshold, ordering, top 10 -/

/-- C7: every group returned by `get_growth_leaders` has
`total_registrations` strictly above the minimum-volume threshold 1000
(groups at or below it are excluded no matter how large their average
growth is); the output is ordered by `avg_growth` descending; and at most
10 rows are returned. -/
theorem growth_leaders_threshold_sorted_top10 (tbl : List VRow) (sd ed : ℕ)
    (gt : String) :
    (∀ g ∈ get_growth_leaders tbl sd ed gt, 1000 < g.total_registrations) ∧
    List.Sorted (fun a b => b.avg_growth ≤ a.avg_growth)
      (get_growth_leaders tbl sd ed gt) ∧
    (get_growth_leaders tbl sd ed gt).length ≤ 10 := by
  haveI hTot : IsTotal LeaderRow (fun a b => b.avg_growth ≤ a.avg_growth) :=
    ⟨fun a b => le_total b.avg_growth a.avg_growth⟩
  haveI hTrans : IsTrans LeaderRow (fun a b => b.avg_growth ≤ a.avg_growth) :=
    ⟨fun a b c h1 h2 => le_trans h2 h1⟩
  simp only [get_growth_leaders]
  refine ⟨?_, ?_, ?_⟩
  · intro g hg
    have hg2 := List.mem_of_mem_take hg
    rw [(List.perm_insertionSort _ _).mem_iff] at hg2
    exact of_decide_eq_true (List.mem_filter.mp hg2).2
  · exact List.Pairwise.sublist (List.take_sublist _ _)
      (List.sorted_insertionSort _ _)
  · exact List.length_take_le _ _

/-! ## Claim C8: the generator is a function of the injected random draws -/

lemma length_genTriples : genTriples.length = 1080 := by
  unfold genTriples
  rw [List.length_flatMap]
  have hconst : List.map
      (List.length ∘ fun t : ℕ =>
        categories.flatMap (fun c => (manufacturers c).map (fun m => (t, c, m))))
      (List.range 60) = List.map (fun _ => (18 : ℕ)) (List.range 60) :=
    List.map_congr_left (fun t _ => by
      simp [categories, manufacturers, List.length_flatMap, Function.comp])
  rw [hconst, List.map_const', List.sum_replicate, List.length_range]
  norm_num

/-- C8: the generator's output is determined by the random draw stream
(and nothing else), and only by the 1080 draws it consumes — one per
(date, category, manufacturer) triple.  With the random source seeded
identically, the draw streams coincide and the outputs are identical
record for record. -/
theorem generate_synthetic_data_deterministic (s₁ s₂ : ℕ → ℚ)
    (h : ∀ i, i < 1080 → s₁ i = s₂ i) :
    generate_synthetic_data s₁ = generate_synthetic_data s₂ := by
  unfold generate_synthetic_data
  apply List.map_congr_left
  intro p hp
  have hlt : p.1 < 1080 := by
    obtain ⟨i, x⟩ := p
    have hmem : (i, x) ∈ genTriples.enumFrom 0 := hp
    have h2 := (List.mem_enumFrom hmem).2.1
    simpa [length_genTriples] using h2
  rw [h p.1 hlt]

/-- Witness for C8 at a concrete pair of (equal) draw streams. -/
theorem generate_synthetic_data_deterministic_witness :
    (∀ i : ℕ, i < 1080 → (fun _ : ℕ => (1 : ℚ)) i = (fun _ : ℕ => (1 : ℚ)) i) ∧
    generate_synthetic_data (fun _ => 1) = generate_synthetic_data (fun _ => 1) :=
  ⟨fun _ _ => rfl, generate_synthetic_data_deterministic _ _ (fun _ _ => rfl)⟩

/-! ## Claim C9: counts are non-negative and unchanged by derivation -/

lemma base_registrations_nonneg (c : String) : 0 ≤ base_registrations c := by
  unfold base_registrations
  split_ifs <;> norm_num

lemma nonneg_ite {p : Prop} [Decidable p] {a b : ℚ} (ha : 0 ≤ a)
    (hb : 0 ≤ b) : 0 ≤ if p then a else b := by
  split
  · exact ha
  · exact hb

lemma market_shares_nonneg (c m : String) : 0 ≤ market_shares c m :=
  nonneg_ite
    (nonneg_ite (by norm_num) (nonneg_ite (by norm_num) (nonneg_ite (by norm_num)
      (nonneg_ite (by norm_num) (nonneg_ite (by norm_num)
        (nonneg_ite (by norm_num) le_rfl))))))
    (nonneg_ite
      (nonneg_ite (by norm_num) (nonneg_ite (by norm_num) (nonneg_ite (by norm_num)
        (nonneg_ite (by norm_num) (nonneg_ite (by norm_num) le_rfl)))))
      (nonneg_ite
        (nonneg_ite (by norm_num) (nonneg_ite (by norm_num) (nonneg_ite (by norm_num)
          (nonneg_ite (by norm_num) (nonneg_ite (by norm_num) (nonneg_ite (by norm_num)
            (nonneg_ite (by norm_num) le_rfl)))))))
        le_rfl))

lemma seasonal_factor_nonneg (mo : ℕ) : 0 ≤ seasonal_factor mo := by
  unfold seasonal_factor
  split_ifs <;> norm_num

lemma growth_factor_nonneg (y : ℕ) : 0 ≤ growth_factor y := by
  unfold growth_factor
  positivity

lemma covid_factor_nonneg (y mo : ℕ) : 0 ≤ covid_factor y mo := by
  unfold covid_factor
  split_ifs <;> norm_num

lemma pyInt_nonneg {q : ℚ} (h : 0 ≤ q) : 0 ≤ pyInt q := by
  unfold pyInt
  rw [if_pos h]
  exact Int.floor_nonneg.mpr h

lemma mkRawRecord_nonneg (t : ℕ) (c m : String) {d : ℚ} (hd : 0 ≤ d) :
    0 ≤ (mkRawRecord t c m d).registrations :=
  pyInt_nonneg (mul_nonneg (mul_nonneg (mul_nonneg (mul_nonneg (mul_nonneg
    (base_registrations_nonneg c) (market_shares_nonneg c m))
    (growth_factor_nonneg _)) (seasonal_factor_nonneg _))
    (covid_factor_nonneg _ _)) hd)

lemma mem_enrichPartition_toRaw {rows : List RawRecord} {r : Record}
    (h : r ∈ enrichPartition rows) : r.toRawRecord ∈ rows := by
  simp only [enrichPartition] at h
  obtain ⟨i, hi, rfl⟩ := List.mem_map.mp h
  have hlt : i < rows.length := List.mem_range.mp hi
  show rows.getD i default ∈ rows
  rw [List.getD_eq_getElem?_getD, List.getElem?_eq_getElem hlt]
  exact List.getElem_mem hlt

lemma mem_partitionOf {rs : List RawRecord} {c m : String} {r : RawRecord}
    (h : r ∈ partitionOf rs c m) : r ∈ rs := by
  unfold partitionOf at h
  rw [(List.perm_insertionSort _ _).mem_iff] at h
  exact (List.mem_filter.mp h).1

lemma mem_calculate_toRaw {rs : List RawRecord} {r : Record}
    (h : r ∈ calculate_growth_metrics rs) : r.toRawRecord ∈ rs := by
  unfold calculate_growth_metrics at h
  rw [List.mem_flatMap] at h
  obtain ⟨k, _, hk⟩ := h
  exact mem_partitionOf (mem_enrichPartition_toRaw hk)

/-- C9: every record generated from a draw stream inside the uniform band
`[0.85, 1.15]` has a non-negative count; the growth derivation keeps
every record's raw part (in particular its count) equal to one of its
input records, so non-negativity is preserved through it. -/
theorem counts_nonneg_and_preserved (s : ℕ → ℚ)
    (hs : ∀ i, 17/20 ≤ s i ∧ s i ≤ 23/20) :
    (∀ r ∈ generate_synthetic_data s, 0 ≤ r.registrations) ∧
    (∀ r ∈ calculate_growth_metrics (generate_synthetic_data s),
      0 ≤ r.registrations) ∧
    (∀ (rs : List RawRecord), ∀ r ∈ calculate_growth_metrics rs,
      r.toRawRecord ∈ rs) := by
  have hgen : ∀ r ∈ generate_synthetic_data s, 0 ≤ r.registrations := by
    intro r hr
    unfold generate_synthetic_data at hr
    obtain ⟨p, _, rfl⟩ := List.mem_map.mp hr
    exact mkRawRecord_nonneg _ _ _ (le_trans (by norm_num) (hs p.1).1)
  refine ⟨hgen, ?_, fun rs r hr => mem_calculate_toRaw hr⟩
  intro r hr
  exact hgen _ (mem_calculate_toRaw hr)

/-- Witness for C9 with the constant draw stream 1 (inside the band). -/
theorem counts_nonneg_and_preserved_witness :
    (∀ i : ℕ, 17/20 ≤ (fun _ : ℕ => (1 : ℚ)) i
      ∧ (fun _ : ℕ => (1 : ℚ)) i ≤ 23/20) ∧
    (∀ r ∈ generate_synthetic_data (fun _ => 1), 0 ≤ r.registrations) :=
  ⟨fun _ => by norm_num,
   (counts_nonneg_and_preserved _ (fun _ => by norm_num)).1⟩

/-! ## Claim C10: query methods absorb backend errors -/

/-- C10: `execute_query` is total at the interface: whenever the backend
fails (for any query, on any store), every table-returning public query
method returns the empty table, the store is unchanged, and running one
query never affects the result of the next. -/
theorem execute_query_error_handling {T : Type}
    (backend : SQLQuery → List VRow → Except String (List T)) (db : List VRow)
    (hfail : ∀ q d, ∃ e, backend q d = .error e) :
    (∀ q, execute_query backend q db = ([], db)) ∧
    (∀ sd ed cats mans,
      run_get_filtered_data backend sd ed cats mans db = ([], db)) ∧
    (∀ sd ed, run_get_category_summary backend sd ed db = ([], db)) ∧
    (∀ sd ed cat,
      run_get_manufacturer_summary backend sd ed cat db = ([], db)) ∧
    (∀ sd ed cats mans,
      run_get_monthly_trends backend sd ed cats mans db = ([], db)) ∧
    (∀ sd ed gt, run_get_growth_leaders backend sd ed gt db = ([], db)) ∧
    (∀ sd ed cat, run_get_market_share_data backend sd ed cat db = ([], db)) ∧
    (∀ q₁ q₂, execute_query backend q₂ (execute_query backend q₁ db).2
        = execute_query backend q₂ db) := by
  have hkey : ∀ q, execute_query backend q db = ([], db) := by
    intro q
    obtain ⟨e, he⟩ := hfail q db
    unfold execute_query
    rw [he]
  refine ⟨hkey, fun sd ed cats mans => hkey _, fun sd ed => hkey _,
    fun sd ed cat => hkey _, fun sd ed cats mans => hkey _,
    fun sd ed gt => hkey _, fun sd ed cat => hkey _, ?_⟩
  intro q₁ q₂
  rw [hkey q₁]

/-- Witness for C10 with a backend that fails on every query. -/
theorem execute_query_error_handling_witness :
    (∀ (q : SQLQuery) (d : List VRow),
      ∃ e, (fun (_ : SQLQuery) (_ : List VRow) =>
        (Except.error "db error" : Except String (List VRow))) q d
          = .error e) ∧
    run_get_filtered_data
      (fun _ _ => (Except.error "db error" : Except String (List VRow)))
      0 5 none none [] = ([], []) :=
  ⟨fun _ _ => ⟨"db error", rfl⟩,
   (execute_query_error_handling _ []
     (fun _ _ => ⟨"db error", rfl⟩)).2.1 0 5 none none⟩

/-! ## Claim C6: market share: shared denominator and the sum of shares -/

lemma sum_map_ite_eq {κ M : Type} [DecidableEq κ] [AddCommMonoid M]
    (ks : List κ) (hnd : ks.Nodup) (c : κ) (hc : c ∈ ks) (v : M) :
    (ks.map (fun k => if c = k then v else 0)).sum = v := by
  induction ks with
  | nil => exact absurd hc (List.not_mem_nil c)
  | cons k t ih =>
    rw [List.map_cons, List.sum_cons]
    by_cases h : c = k
    · subst h
      rw [if_pos rfl]
      have hz : (t.map (fun k2 => if c = k2 then v else 0)).sum = 0 := by
        apply List.sum_eq_zero
        intro x hx
        obtain ⟨k2, hk2, rfl⟩ := List.mem_map.mp hx
        refine if_neg (fun hck => (List.nodup_cons.mp hnd).1 ?_)
        rw [hck]
        exact hk2
      rw [hz, add_zero]
    · rw [if_neg h, zero_add]
      refine ih (List.nodup_cons.mp hnd).2 ?_
      rcases List.mem_cons.mp hc with h2 | h2
      · exact absurd h2 h
      · exact h2

lemma sum_fiberwise {α κ : Type} [DecidableEq κ] (l : List α) (key : α → κ)
    (val : α → ℤ) (ks : List κ) (hnd : ks.Nodup)
    (hcov : ∀ a ∈ l, key a ∈ ks) :
    (ks.map (fun k => ((l.filter (fun x => key x == k)).map val).sum)).sum
      = (l.map val).sum := by
  induction l with
  | nil => simp
  | cons a t ih =>
    have hsplit : ∀ k : κ,
        ((List.filter (fun x => key x == k) (a :: t)).map val).sum
          = (if key a = k then val a else 0)
            + ((List.filter (fun x => key x == k) t).map val).sum := by
      intro k
      by_cases h : key a = k
      · simp [List.filter_cons, h]
      · simp [List.filter_cons, h]
    calc (ks.map
          (fun k => ((List.filter (fun x => key x == k) (a :: t)).map val).sum)).sum
        = (ks.map (fun k => (if key a = k then val a else 0)
            + ((List.filter (fun x => key x == k) t).map val).sum)).sum :=
          congrArg List.sum (List.map_congr_left (fun k _ => hsplit k))
      _ = (ks.map (fun k => if key a = k then val a else 0)).sum
            + (ks.map
                (fun k => ((List.filter (fun x => key x == k) t).map val).sum)).sum :=
          List.sum_map_add
      _ = val a + (t.map val).sum := by
          rw [sum_map_ite_eq ks hnd (key a) (hcov a (List.mem_cons_self a t)) (val a),
            ih (fun x hx => hcov x (List.mem_cons_of_mem a hx))]
      _ = ((a :: t).map val).sum := by rw [List.map_cons, List.sum_cons]

lemma abs_sqliteRound_sub (y : ℚ) : |(sqliteRound y : ℚ) - y| ≤ 1/2 := by
  unfold sqliteRound
  split_ifs with h
  · rw [abs_sub_comm]
    exact abs_sub_round y
  · have h2 : (((-(round (-y)) : ℤ) : ℚ)) - y = -(((round (-y) : ℤ) : ℚ) - (-y)) := by
      push_cast
      ring
    rw [h2, abs_neg, abs_sub_comm]
    exact abs_sub_round (-y)

lemma abs_sql_round2_sub (q : ℚ) : |sql_round2 q - q| ≤ 1/200 := by
  unfold sql_round2
  have h1 : (sqliteRound (q * 100) : ℚ) / 100 - q
      = ((sqliteRound (q * 100) : ℚ) - q * 100) / 100 := by ring
  rw [h1, abs_div, abs_of_pos (show (0:ℚ) < 100 by norm_num)]
  calc |(sqliteRound (q * 100) : ℚ) - q * 100| / 100
      ≤ (1/2) / 100 :=
        (div_le_div_iff_of_pos_right (by norm_num)).mpr (abs_sqliteRound_sub (q * 100))
    _ = 1/200 := by norm_num

lemma abs_sum_sub_sum_le {κ : Type} (l : List κ) (f g : κ → ℚ) (c : ℚ)
    (h : ∀ k ∈ l, |f k - g k| ≤ c) :
    |(l.map f).sum - (l.map g).sum| ≤ (l.length : ℚ) * c := by
  induction l with
  | nil => simp
  | cons a t ih =>
    rw [List.map_cons, List.map_cons, List.sum_cons, List.sum_cons]
    have h1 := h a (List.mem_cons_self a t)
    have h2 := ih (fun k hk => h k (List.mem_cons_of_mem a hk))
    have h3 : f a + (t.map f).sum - (g a + (t.map g).sum)
        = (f a - g a) + ((t.map f).sum - (t.map g).sum) := by ring
    rw [h3]
    calc |(f a - g a) + ((t.map f).sum - (t.map g).sum)|
        ≤ |f a - g a| + |(t.map f).sum - (t.map g).sum| := abs_add _ _
      _ ≤ c + (t.length : ℚ) * c := add_le_add h1 h2
      _ = ((a :: t).length : ℚ) * c := by
          rw [List.length_cons]
          push_cast
          ring

/-- The exact (pre-rounding) shares computed against the shared
denominator sum to exactly 100. -/
lemma msShares_sum_eq_100 (rows : List VRow) (T : ℤ) (hT : T ≠ 0)
    (hTot : (rows.map (fun r => r.registrations)).sum = T) :
    (((rows.map (fun r => r.manufacturer)).dedup).map
      (fun m => ((((rows.filter (fun r => r.manufacturer == m)).map
          (fun r => r.registrations)).sum : ℤ) : ℚ) * 100 / (T : ℚ))).sum = 100 := by
  have hTC : ((T : ℤ) : ℚ) ≠ 0 := Int.cast_ne_zero.mpr hT
  have h1 : (((rows.map (fun r => r.manufacturer)).dedup).map
      (fun m => ((((rows.filter (fun r => r.manufacturer == m)).map
          (fun r => r.registrations)).sum : ℤ) : ℚ) * 100 / (T : ℚ))).sum
      = (((rows.map (fun r => r.manufacturer)).dedup).map
      (fun m => ((((rows.filter (fun r => r.manufacturer == m)).map
          (fun r => r.registrations)).sum : ℤ) : ℚ) * (100 / (T : ℚ)))).sum :=
    congrArg List.sum (List.map_congr_left (fun m _ => mul_div_assoc _ _ _))
  rw [h1, List.sum_map_mul_right]
  have h2 : (((rows.map (fun r => r.manufacturer)).dedup).map
      (fun m => ((((rows.filter (fun r => r.manufacturer == m)).map
          (fun r => r.registrations)).sum : ℤ) : ℚ))).sum
      = ((((rows.map (fun r => r.manufacturer)).dedup).map
          (fun m => (((rows.filter (fun r => r.manufacturer == m)).map
            (fun r => r.registrations)).sum : ℤ))).sum : ℚ) := by
    rw [Int.cast_list_sum, List.map_map]
    exact congrArg List.sum (List.map_congr_left (fun m _ => rfl))
  rw [h2, sum_fiberwise rows (fun r => r.manufacturer) (fun r => r.registrations) _
      (List.nodup_dedup _) (fun a ha => List.mem_dedup.mpr (List.mem_map_of_mem _ ha)),
    hTot]
  field_simp

/-- The rounded share column of the grouped rows, written pointwise. -/
lemma msShareSum_eq (rows : List VRow) (T : ℤ) (hT : T ≠ 0) :
    ((((rows.map (fun r => r.manufacturer)).dedup).map (msGroup rows T)).map
      (fun g => g.market_share.getD 0)).sum
      = (((rows.map (fun r => r.manufacturer)).dedup).map
        (fun m => sql_round2 (((((rows.filter (fun r => r.manufacturer == m)).map
            (fun r => r.registrations)).sum : ℤ) : ℚ) * 100 / (T : ℚ)))).sum := by
  rw [List.map_map]
  refine congrArg List.sum (List.map_congr_left (fun m _ => ?_))
  show ((msGroup rows T m).market_share).getD 0 = _
  simp only [msGroup]
  rw [if_neg hT]
  rfl

/-- Per-row rounding errors are at most 1/200, so the rounded shares sum
to 100 within 1/200 per group. -/
lemma msShareSum_bound (rows : List VRow) (T : ℤ) (hT : T ≠ 0)
    (hTot : (rows.map (fun r => r.registrations)).sum = T) :
    |((((rows.map (fun r => r.manufacturer)).dedup).map (msGroup rows T)).map
        (fun g => g.market_share.getD 0)).sum - 100|
      ≤ ((((rows.map (fun r => r.manufacturer)).dedup).length : ℕ) : ℚ) / 200 := by
  have hb := abs_sum_sub_sum_le ((rows.map (fun r => r.manufacturer)).dedup)
    (fun m => sql_round2 (((((rows.filter (fun r => r.manufacturer == m)).map
        (fun r => r.registrations)).sum : ℤ) : ℚ) * 100 / (T : ℚ)))
    (fun m => ((((rows.filter (fun r => r.manufacturer == m)).map
        (fun r => r.registrations)).sum : ℤ) : ℚ) * 100 / (T : ℚ))
    (1/200) (fun m _ => abs_sql_round2_sub _)
  rw [msShares_sum_eq_100 rows T hT hTot] at hb
  rw [msShareSum_eq rows T hT]
  calc |(((rows.map (fun r => r.manufacturer)).dedup).map
          (fun m => sql_round2 (((((rows.filter (fun r => r.manufacturer == m)).map
              (fun r => r.registrations)).sum : ℤ) : ℚ) * 100 / (T : ℚ)))).sum - 100|
      ≤ ((((rows.map (fun r => r.manufacturer)).dedup).length : ℕ) : ℚ) * (1/200) := hb
    _ = ((((rows.map (fun r => r.manufacturer)).dedup).length : ℕ) : ℚ) / 200 := by
        ring

/-- C6 (amended): every returned row's share is computed against the one
shared denominator (the category total over the range); the shares sum to
100 within 1/200 (= 0.005, half of the last rounded digit) per returned
row; in particular, whenever at most 20 manufacturers are returned — this
repository's rosters have at most 7 — the sum is within 0.1 of 100. -/
theorem market_share_shared_denominator_and_sum (tbl : List VRow) (sd ed : ℕ)
    (cat : String) (htot : totalRegs tbl sd ed cat ≠ 0) :
    (∀ g ∈ get_market_share_data tbl sd ed cat,
      g.market_share = some (sql_round2 ((g.total_registrations : ℚ) * 100
        / (totalRegs tbl sd ed cat : ℚ)))) ∧
    |shareSum (get_market_share_data tbl sd ed cat) - 100|
      ≤ ((get_market_share_data tbl sd ed cat).length : ℚ) / 200 ∧
    ((get_market_share_data tbl sd ed cat).length ≤ 20 →
      |shareSum (get_market_share_data tbl sd ed cat) - 100| ≤ 1/10) := by
  have hperm : (get_market_share_data tbl sd ed cat).Perm
      (((msRows tbl sd ed cat).map (fun r => r.manufacturer)).dedup.map
        (msGroup (msRows tbl sd ed cat) (totalRegs tbl sd ed cat))) :=
    List.perm_insertionSort _ _
  have hpart1 : ∀ g ∈ get_market_share_data tbl sd ed cat,
      g.market_share = some (sql_round2 ((g.total_registrations : ℚ) * 100
        / (totalRegs tbl sd ed cat : ℚ))) := by
    intro g hg
    rw [hperm.mem_iff] at hg
    obtain ⟨m, _, rfl⟩ := List.mem_map.mp hg
    simp only [msGroup]
    rw [if_neg htot]
  have hss : shareSum (get_market_share_data tbl sd ed cat)
      = ((((msRows tbl sd ed cat).map (fun r => r.manufacturer)).dedup.map
          (msGroup (msRows tbl sd ed cat) (totalRegs tbl sd ed cat))).map
          (fun g => g.market_share.getD 0)).sum :=
    (hperm.map _).sum_eq
  have hlen : (get_market_share_data tbl sd ed cat).length
      = (((msRows tbl sd ed cat).map (fun r => r.manufacturer)).dedup).length := by
    rw [hperm.length_eq, List.length_map]
  have hpart2 : |shareSum (get_market_share_data tbl sd ed cat) - 100|
      ≤ ((get_market_share_data tbl sd ed cat).length : ℚ) / 200 := by
    rw [hss, hlen]
    exact msShareSum_bound (msRows tbl sd ed cat) (totalRegs tbl sd ed cat) htot rfl
  refine ⟨hpart1, hpart2, fun h20 => ?_⟩
  calc |shareSum (get_market_share_data tbl sd ed cat) - 100|
      ≤ ((get_market_share_data tbl sd ed cat).length : ℚ) / 200 := hpart2
    _ ≤ (20 : ℚ) / 200 := by
        apply (div_le_div_iff_of_pos_right (by norm_num)).mpr
        exact_mod_cast h20
    _ = 1/10 := by norm_num

/-- A two-manufacturer table used to witness C6. -/
def msWitTbl : List VRow :=
  [{ date := 0, vehicle_category := "C", manufacturer := "A",
     registrations := 3, yoy_growth := none, qoq_growth := none },
   { date := 0, vehicle_category := "C", manufacturer := "B",
     registrations := 1, yoy_growth := none, qoq_growth := none }]

/-- Witness for C6's amended market-share law on a concrete store. -/
theorem market_share_shared_denominator_and_sum_witness :
    totalRegs msWitTbl 0 0 "C" ≠ 0 ∧
    ((∀ g ∈ get_market_share_data msWitTbl 0 0 "C",
      g.market_share = some (sql_round2 ((g.total_registrations : ℚ) * 100
        / (totalRegs msWitTbl 0 0 "C" : ℚ)))) ∧
    |shareSum (get_market_share_data msWitTbl 0 0 "C") - 100|
      ≤ ((get_market_share_data msWitTbl 0 0 "C").length : ℚ) / 200 ∧
    ((get_market_share_data msWitTbl 0 0 "C").length ≤ 20 →
      |shareSum (get_market_share_data msWitTbl 0 0 "C") - 100| ≤ 1/10)) :=
  ⟨by decide, market_share_shared_denominator_and_sum msWitTbl 0 0 "C" (by decide)⟩

/-- Sixty manufacturers of one category with one registration each: every
share is `ROUND(100/60, 2) = 1.67`, and the 60 shares sum to 100.20. -/
def msTbl : List VRow :=
  (List.range 60).map (fun i =>
    { date := 0, vehicle_category := "C", manufacturer := "m" ++ toString i,
      registrations := 1, yoy_growth := none, qoq_growth := none })

set_option maxRecDepth 10000 in
/-- C6 counterexample: a market-share query whose returned shares sum to
100.2, farther than 0.1 from 100, although one (actually every) entity
has a nonzero count. -/
theorem market_share_sum_counterexample :
    shareSum (get_market_share_data msTbl 0 0 "C") = 501/5 ∧
    ¬ |shareSum (get_market_share_data msTbl 0 0 "C") - 100| ≤ 1/10 := by
  have hperm : (get_market_share_data msTbl 0 0 "C").Perm
      (((msRows msTbl 0 0 "C").map (fun r => r.manufacturer)).dedup.map
        (msGroup (msRows msTbl 0 0 "C") (totalRegs msTbl 0 0 "C"))) :=
    List.perm_insertionSort _ _
  have hss : shareSum (get_market_share_data msTbl 0 0 "C")
      = ((((msRows msTbl 0 0 "C").map (fun r => r.manufacturer)).dedup.map
          (msGroup (msRows msTbl 0 0 "C") (totalRegs msTbl 0 0 "C"))).map
          (fun g => g.market_share.getD 0)).sum :=
    (hperm.map _).sum_eq
  have htot60 : totalRegs msTbl 0 0 "C" = 60 := by decide
  have hall : ∀ m ∈ ((msRows msTbl 0 0 "C").map (fun r => r.manufacturer)).dedup,
      (((msRows msTbl 0 0 "C").filter (fun r => r.manufacturer == m)).map
        (fun r => r.registrations)).sum = 1 := by decide
  have hround : round ((500 : ℚ)/3) = 167 := by
    rw [round_eq, show (500:ℚ)/3 + 1/2 = 1003/6 by norm_num, Int.floor_eq_iff]
    norm_num
  have hshare : sql_round2 (((1 : ℤ) : ℚ) * 100 / ((60 : ℤ) : ℚ)) = 167/100 := by
    have hq : ((1 : ℤ) : ℚ) * 100 / ((60 : ℤ) : ℚ) = 5/3 := by
      push_cast
      norm_num
    rw [hq]
    unfold sql_round2 sqliteRound
    rw [show (5:ℚ)/3 * 100 = 500/3 by norm_num,
      if_pos (by norm_num : (0:ℚ) ≤ 500/3), hround]
    norm_num
  have hvals : ∀ m ∈ ((msRows msTbl 0 0 "C").map (fun r => r.manufacturer)).dedup,
      ((msGroup (msRows msTbl 0 0 "C") (totalRegs msTbl 0 0 "C") m).market_share).getD 0
        = 167/100 := by
    intro m hm
    simp only [msGroup]
    rw [if_neg (by rw [htot60]; norm_num), hall m hm, htot60, hshare]
    rfl
  have hkeylen :
      (((msRows msTbl 0 0 "C").map (fun r => r.manufacturer)).dedup).length = 60 := by
    decide
  have hconst : ((((msRows msTbl 0 0 "C").map (fun r => r.manufacturer)).dedup.map
      (msGroup (msRows msTbl 0 0 "C") (totalRegs msTbl 0 0 "C"))).map
      (fun g => g.market_share.getD 0))
      = ((msRows msTbl 0 0 "C").map (fun r => r.manufacturer)).dedup.map
        (fun _ => (167:ℚ)/100) := by
    rw [List.map_map]
    exact List.map_congr_left (fun m hm => hvals m hm)
  have hsum : shareSum (get_market_share_data msTbl 0 0 "C") = 501/5 := by
    rw [hss, hconst, List.map_const', List.sum_replicate, hkeylen, nsmul_eq_mul]
    norm_num
  refine ⟨hsum, ?_⟩
  rw [hsum, show (501:ℚ)/5 - 100 = 1/5 by norm_num,
    abs_of_nonneg (by norm_num : (0:ℚ) ≤ 1/5)]
  norm_num
